import Mathlib

/-!
The docker-build helper (`main.go`): build request and streamed response

A shallow embedding of `main.go`: the three functions of the file
(`copyFile`, `GetImageIDFromBody`, `main`) over explicit models of what they
call into: Go's `encoding/json` (`Decoder.Decode`, `Unmarshal`), `io`,
`os`, `log`, and the Docker client.

Conventions.

* A loop of the source that Go does not bound (`for { ... }`) takes a fuel
  argument; one unit of fuel is one iteration, and running out of fuel is
  reported (`none`, `Exit.running`) rather than hidden.
* What the operating system and the daemon answer is a parameter (`World`).
* Effects (standard output, log output, file system, daemon calls) are
  recorded in the order the program performs them.
-/

namespace DockerBuild

/-! ## JSON texts -/

/-- A JSON text, parsed. Numbers keep only an integer value: no function of
`main.go` looks at a number. Object members keep their order and may repeat a
key, as on the wire. -/
inductive JVal where
  | null
  | bool (b : Bool)
  | num (n : Int)
  | str (s : String)
  | arr (items : List JVal)
  | obj (members : List (String × JVal))

/-- The limit `maxNestingDepth` of the scanner of `encoding/json`: a text in
which more than this many arrays and objects are open at once is refused with
the syntax error "exceeded max depth". -/
def maxNestingDepth : Nat := 10000

mutual
/-- How many arrays and objects are open at once, at most, while the text is
read: 0 for a literal, 1 for `[]` and `{}`. -/
def JVal.depth : JVal → Nat
  | .arr items => depthItems items + 1
  | .obj members => depthMembers members + 1
  | _ => 0
/-- The greatest depth among the items of an array. -/
def depthItems : List JVal → Nat
  | [] => 0
  | v :: vs => max v.depth (depthItems vs)
/-- The greatest depth among the member values of an object. -/
def depthMembers : List (String × JVal) → Nat
  | [] => 0
  | (_, v) :: ms => max v.depth (depthMembers ms)
end

/-- Case folding of a member key, as `encoding/json` folds keys before it
looks a field up by folded name. For the two field names used here (`aux`
and `ID`) only ASCII letters fold onto the letters of the name. -/
def foldName (s : String) : String :=
  String.mk (s.data.map Char.toUpper)

/-- Field lookup of `encoding/json`: a key selects the field with exactly that
name, and failing that the field whose folded name is the folded key. -/
def fieldMatch (field key : String) : Bool :=
  key == field || foldName key == foldName field

/-! ## Library types -/

/-- The errors `GetImageIDFromBody` can be handed by `encoding/json`. -/
inductive DecodeError where
  | EOF
  | ErrUnexpectedEOF
  | SyntaxError
  | UnmarshalTypeError
  deriving DecidableEq, Repr

/-- One stretch of a response body: a complete JSON text (of any nesting
depth; whether the decoder accepts it is decided in `Decoder.Decode`), bytes
that are not JSON, or an unfinished JSON text cut off by the end of the
stream. -/
inductive Chunk where
  | value (v : JVal)
  | invalid
  | truncated

/-- The response body, `io.Reader` over a finite content: the chunks not yet
read. -/
abbrev Body := List Chunk

/-- The call `body.Read`: the next chunk, or `none` for `io.EOF`, and the body after
the read. -/
def Body.Read : Body → Option Chunk × Body
  | [] => (none, [])
  | c :: rest => (some c, rest)

/-- The type `jsonmessage.JSONMessage`. Only `Aux` is kept: `main.go` reads no other
field. `Aux` is a `*json.RawMessage`: `none` is the nil pointer, `some v` a
pointer to the raw text `v`. -/
structure JSONMessage where
  Aux : Option JVal

/-- The type `types.BuildResult`. -/
structure BuildResult where
  ID : String
  deriving DecidableEq, Repr

/-- The type `json.Decoder`: the reader it was created on and the error it keeps once
reading has failed (`dec.err`). -/
structure Decoder where
  r : Body
  err : Option DecodeError

/-- The call `json.NewDecoder(body)`. -/
def NewDecoder (body : Body) : Decoder :=
  { r := body, err := none }

/-- Storing one object member into a `JSONMessage`. A key that selects `Aux`
stores the nil pointer for `null` and a pointer to the raw text otherwise; any
other key leaves `Aux` alone. -/
def storeMember (jm : JSONMessage) (kv : String × JVal) : JSONMessage :=
  if fieldMatch "aux" kv.1 then
    match kv.2 with
    | .null => { jm with Aux := none }
    | p => { jm with Aux := some p }
  else jm

/-- Unmarshalling one JSON text into an existing `JSONMessage` (the `v` of
`dec.Decode(v)`): members are stored in order into the value that is already
there; `null` stores nothing; any other text is a type mismatch and stores
nothing. Type mismatches of members other than `aux` are not tracked: the
error is only ever compared with `io.EOF`, which unmarshalling never
returns. -/
def unmarshalJSONMessage (v : JVal) (jm : JSONMessage) : JSONMessage × Option DecodeError :=
  match v with
  | .obj members => (members.foldl storeMember jm, none)
  | .null => (jm, none)
  | _ => (jm, some .UnmarshalTypeError)

/-- The call `dec.Decode(&jm)`. A decoder that has failed returns the same error again
and reads nothing. Otherwise it reads up to the end of the next JSON text and
unmarshals it; at the end of the body it fails with `io.EOF`, on bytes that
are not JSON and on a text nested deeper than `maxNestingDepth` with a syntax
error, on an unfinished text with `io.ErrUnexpectedEOF` (having read to the
end); these are kept in `dec.err`, an unmarshalling error is not. -/
def Decoder.Decode (dec : Decoder) (jm : JSONMessage) :
    Decoder × JSONMessage × Option DecodeError :=
  match dec.err with
  | some e => (dec, jm, some e)
  | none =>
    match dec.r.Read with
    | (none, r) => ({ r := r, err := some .EOF }, jm, some .EOF)
    | (some .invalid, r) => ({ r := r, err := some .SyntaxError }, jm, some .SyntaxError)
    | (some .truncated, _) =>
      ({ r := [], err := some .ErrUnexpectedEOF }, jm, some .ErrUnexpectedEOF)
    | (some (.value v), r) =>
      if maxNestingDepth < v.depth then
        ({ r := r, err := some .SyntaxError }, jm, some .SyntaxError)
      else
        let res := unmarshalJSONMessage v jm
        ({ r := r, err := none }, res.1, res.2)

/-- Storing one object member into a `BuildResult`: a key that selects `ID`
stores a string, ignores `null`, and records a type mismatch for anything
else without touching the field; the first mismatch is the one reported. -/
def storeID (acc : BuildResult × Option DecodeError) (kv : String × JVal) :
    BuildResult × Option DecodeError :=
  if fieldMatch "ID" kv.1 then
    match kv.2 with
    | .str s => ({ acc.1 with ID := s }, acc.2)
    | .null => acc
    | _ => (acc.1, acc.2 <|> some .UnmarshalTypeError)
  else acc

/-- The call `json.Unmarshal(data, &br)` for a `BuildResult`, on a raw text that is
already known to be JSON. The text is first checked by the scanner, which
refuses one nested deeper than `maxNestingDepth` and then stores nothing.
After that Go completes the unmarshalling as best it can: a member of the
wrong type is skipped and reported at the end, the members around it are
still stored. -/
def Unmarshal (data : JVal) (br : BuildResult) : BuildResult × Option DecodeError :=
  if maxNestingDepth < data.depth then (br, some .SyntaxError)
  else
    match data with
    | .obj members => members.foldl storeID (br, none)
    | .null => (br, none)
    | _ => (br, some .UnmarshalTypeError)

/-- The call `io.Copy(io.Discard, body)`: read until `io.EOF`, keep nothing. -/
def ioCopyDiscard : Body → Body
  | [] => []
  | _ :: rest => ioCopyDiscard rest

/-! ## `GetImageIDFromBody` -/

/-- The `for` loop of `GetImageIDFromBody`, with the variables it updates.
`none`: the loop is still running when the fuel is spent. -/
def decodeLoop : Nat → Decoder → JSONMessage → BuildResult → Option (Decoder × BuildResult)
  | 0, _, _, _ => none
  | fuel + 1, dec, jm, br =>
    match dec.Decode jm with
    | (dec1, jm1, err) =>
      if err = some DecodeError.EOF then some (dec1, br)
      else
        match jm1.Aux with
        | none => decodeLoop fuel dec1 jm1 br
        | some raw => some (dec1, (Unmarshal raw br).1)

/-- The function `GetImageIDFromBody(body)`: the returned string and the body as the call
leaves it. `none`: the call has not returned within `fuel` iterations. -/
def GetImageIDFromBody (fuel : Nat) (body : Body) : Option (String × Body) :=
  match decodeLoop fuel (NewDecoder body) { Aux := none } { ID := "" } with
  | none => none
  | some (dec, br) => some (br.ID, ioCopyDiscard dec.r)

/-! ## The process around `main` -/

/-- The type `types.ImageBuildOptions`, the fields `main` sets. -/
structure ImageBuildOptions where
  Remove : Bool
  ForceRemove : Bool
  Dockerfile : String
  Tags : List String
  Interactive : Bool
  deriving DecidableEq, Repr

/-- What the operating system and the daemon answer to the calls of one run. -/
structure World where
  /-- Whether `client.NewClientWithOpts` fails. -/
  clientErr : Bool
  /-- Answer of `os.MkdirTemp`: the directory it creates, or `none` when it fails. -/
  mkdirTemp : Option String
  /-- Whether `os.Open` of the dockerfile fails. -/
  openErr : Bool
  /-- Whether `os.Create` of the staged copy fails. -/
  createErr : Bool
  /-- Whether `io.Copy` between the two files fails. -/
  copyErr : Bool
  /-- Whether `archive.TarWithOptions` fails. -/
  tarErr : Bool
  /-- Answer of `apiClient.ImageBuild`: `none` when it fails, else the response body,
  which may be nil. -/
  build : Option (Option Body)

/-- A call the program makes that reaches outside the process, apart from
writes to standard output. -/
inductive Effect where
  | log (msg : String)
  | newClient
  | clientClose
  | mkdirTemp (pattern : String)
  | removeAll (dir : String)
  | osOpen (path : String)
  | osCreate (path : String)
  | ioCopy (dest src : String)
  | fileClose (path : String)
  | tar (dir : String)
  | imageBuild (context : String) (options : ImageBuildOptions)
  | bodyClose
  deriving DecidableEq, Repr

/-- A call `main` has deferred. -/
inductive Deferred where
  | clientClose
  | removeAll (dir : String)
  | bodyClose
  deriving DecidableEq, Repr

/-- How the process stands: `running` when the fuel is spent inside
`GetImageIDFromBody`, so that the process has not exited. -/
inductive Exit where
  | returned
  | panicked
  | exited (code : Nat)
  | running
  deriving DecidableEq, Repr

/-- The process while `main` runs: lines written to standard output, calls
made, temporary directories that exist, and the deferred calls of `main`,
the latest first. -/
structure Proc where
  stdout : List String
  calls : List Effect
  dirs : List String
  defers : List Deferred

/-- What a run leaves behind. -/
structure Run where
  exit : Exit
  stdout : List String
  calls : List Effect
  dirs : List String
  deriving DecidableEq, Repr

/-- The call `fmt.Println` of one line. -/
def Proc.println (p : Proc) (line : String) : Proc :=
  { p with stdout := p.stdout ++ [line] }

/-- Record a call. -/
def Proc.call (p : Proc) (e : Effect) : Proc :=
  { p with calls := p.calls ++ [e] }

/-- The statement `defer d`. -/
def Proc.defer (p : Proc) (d : Deferred) : Proc :=
  { p with defers := d :: p.defers }

/-- Running one deferred call. `os.RemoveAll` removes the directory. -/
def runDeferred (p : Proc) : Deferred → Proc
  | .clientClose => p.call .clientClose
  | .removeAll dir => { p.call (.removeAll dir) with dirs := p.dirs.filter (fun d => d != dir) }
  | .bodyClose => p.call .bodyClose

/-- Running the deferred calls, the latest first. -/
def runDefers (p : Proc) : Proc :=
  p.defers.foldl runDeferred { p with defers := [] }

/-- The run as it stands, with the given exit. -/
def Proc.finish (p : Proc) (e : Exit) : Run :=
  { exit := e, stdout := p.stdout, calls := p.calls, dirs := p.dirs }

/-- Return from `main`: the deferred calls run, the process exits. -/
def goReturn (p : Proc) : Run :=
  (runDefers p).finish .returned

/-- A panic in `main`, or in a function it calls: the deferred calls run, the
process crashes. -/
def goPanic (p : Proc) : Run :=
  (runDefers p).finish .panicked

/-- The call `os.Exit(code)`: the process exits at once; deferred calls are not run. -/
def osExit (p : Proc) (code : Nat) : Run :=
  p.finish (.exited code)

/-- The call `log.Fatalf`: write the message, then `os.Exit(1)`. -/
def logFatalf (p : Proc) (msg : String) : Run :=
  osExit (p.call (.log msg)) 1

/-- The call `log.Panicf`: write the message, then panic. -/
def logPanicf (p : Proc) (msg : String) : Run :=
  goPanic (p.call (.log msg))

/-- The elements of a path: the stretches between its separators. -/
def splitPath : List Char → List (List Char)
  | [] => [[]]
  | c :: cs =>
    match splitPath cs with
    | [] => if c = '/' then [[], []] else [[c]]
    | e :: es => if c = '/' then [] :: e :: es else (c :: e) :: es

/-- The loop of `filepath.Clean` over the elements of a path, `kept` being the
elements written so far, the latest first: an empty element and `.` are
dropped; `..` takes back the element before it, is dropped at the root, and
is kept at the start of a path that is not rooted. -/
def cleanElems (rooted : Bool) : List (List Char) → List (List Char) → List (List Char)
  | kept, [] => kept.reverse
  | kept, e :: es =>
    if e = [] ∨ e = ['.'] then cleanElems rooted kept es
    else if e = ['.', '.'] then
      match kept with
      | [] => if rooted then cleanElems rooted [] es else cleanElems rooted [e] es
      | k :: ks =>
        if k = ['.', '.'] then cleanElems rooted (e :: k :: ks) es
        else cleanElems rooted ks es
    else cleanElems rooted (e :: kept) es

/-- Elements joined by the separator. -/
def joinElems : List (List Char) → List Char
  | [] => []
  | [e] => e
  | e :: es => e ++ '/' :: joinElems es

/-- The call `filepath.Clean(path)` with the separator `/`. -/
def filepathClean (path : String) : String :=
  match path.data with
  | [] => "."
  | c :: cs =>
    let rooted : Bool := c = '/'
    let out := joinElems (cleanElems rooted [] (splitPath (c :: cs)))
    if rooted then String.mk ('/' :: out)
    else if out = [] then "." else String.mk out

/-- The call `filepath.Join(dir, name)`: the elements that are not empty,
joined by the separator and cleaned; the empty string when both are empty. -/
def filepathJoin (dir name : String) : String :=
  if dir = "" then (if name = "" then "" else filepathClean name)
  else if name = "" then filepathClean dir
  else filepathClean (dir ++ "/" ++ name)

/-- The call `fmt.Println` of a string and a bool: the operands separated by a blank. -/
def printlnBool (label : String) (b : Bool) : String :=
  label ++ " " ++ (if b then "true" else "false")

/-- The call `fmt.Println` of two strings: the operands separated by a blank. -/
def printlnStr (label value : String) : String :=
  label ++ " " ++ value

/-- The function `copyFile(src, dest)`: the process after the call and whether the call
panicked. Its own deferred closes run before it returns or panics on. -/
def copyFile (w : World) (src dest : String) (p : Proc) : Proc × Bool :=
  let p1 := p.call (.osOpen src)
  if w.openErr then (p1, true)
  else
    let p2 := p1.call (.osCreate dest)
    if w.createErr then (p2.call (.fileClose src), true)
    else
      let p3 := p2.call (.ioCopy dest src)
      ((p3.call (.fileClose dest)).call (.fileClose src), w.copyErr)

/-- The positional argument `main` reads: `args[0]`, or `"."`. -/
def buildContextOf (args : List String) : String :=
  match args with
  | [] => "."
  | a :: _ => a

/-- The options `main` passes to `ImageBuild`. -/
def buildOptions (target : String) (interactiveDebug : Bool) : ImageBuildOptions :=
  { Remove := true
    ForceRemove := true
    Dockerfile := "Dockerfile"
    Tags := [target]
    Interactive := interactiveDebug }

/-- The message `main` prints when no image id was found. -/
def failureMessage : String :=
  "😭 Sorry, that image build failed."

/-- The function `main`, from the parsed flags `-t`, `-f`, `-i` and the remaining
arguments. -/
def main (fuel : Nat) (target dockerfile : String) (interactiveDebug : Bool)
    (args : List String) (w : World) : Run :=
  let p0 : Proc := { stdout := [], calls := [], dirs := [], defers := [] }
  if target = "" then logPanicf p0 "Please enter a -t target to build"
  else
    let buildContext := buildContextOf args
    let p1 := ((((p0.println "🦎 Dinosaur debug builder:").println
      (printlnBool "  interactive debug:" interactiveDebug)).println
      (printlnStr "         dockerfile:" dockerfile)).println
      (printlnStr "            context:" buildContext)).println
      (printlnStr "             target:" target)
    let p2 := p1.call .newClient
    if w.clientErr then goPanic p2
    else
      let p3 := p2.defer .clientClose
      let p4 := p3.call (.mkdirTemp "docker-dinosaur-build")
      match w.mkdirTemp with
      | none => logFatalf p4 "could not create temporary directory"
      | some tmp =>
        let p5 := { p4 with dirs := tmp :: p4.dirs }.defer (.removeAll tmp)
        match copyFile w dockerfile (filepathJoin tmp "Dockerfile") p5 with
        | (p6, true) => goPanic p6
        | (p6, false) =>
          let p7 := p6.call (.tar tmp)
          if w.tarErr then logFatalf p7 "could not create tar"
          else
            let p8 := p7.call (.imageBuild tmp (buildOptions target interactiveDebug))
            match w.build with
            | none => logFatalf p8 "could not build image"
            | some none => goPanic p8
            | some (some body) =>
              let p9 := p8.defer .bodyClose
              match GetImageIDFromBody fuel body with
              | none => p9.finish .running
              | some (img, _) =>
                if img = "" then goReturn (p9.println failureMessage)
                else goReturn (p9.println img)

/-! ## Notions of the specification -/

/-- The auxiliary payload an event record carries: the value of its last
member named `aux`, when that value is not `null`. A record that is not an
object carries none. -/
def auxPayload : JVal → Option JVal
  | .obj members =>
    match (members.filter (fun kv => fieldMatch "aux" kv.1)).getLast? with
    | none => none
    | some (_, .null) => none
    | some (_, p) => some p
  | _ => none

/-- A JSON event record: a complete JSON text that the decoder decodes, which
it does unless the text is nested deeper than `maxNestingDepth`. -/
def decodable (v : JVal) : Prop :=
  v.depth ≤ maxNestingDepth

instance (v : JVal) : Decidable (decodable v) := by
  unfold decodable
  infer_instance

/-- The strings a payload offers for the field `ID`, in order. -/
def idStrings : JVal → List String
  | .obj members =>
    members.filterMap (fun kv =>
      if fieldMatch "ID" kv.1 then
        match kv.2 with
        | .str s => some s
        | _ => none
      else none)
  | _ => []

/-- A text nested `n` arrays deep. -/
def nested : Nat → JVal
  | 0 => .null
  | n + 1 => .arr [nested n]

/-- The id of an event record whose auxiliary payload is a valid encoding of a
build result (one that `json.Unmarshal` accepts without error). -/
def validAuxID (v : JVal) : Option String :=
  match auxPayload v with
  | none => none
  | some p =>
    match Unmarshal p { ID := "" } with
    | (br, none) => some br.ID
    | (_, some _) => none

/-- A progress event carrying the given status text. -/
def progressEvent (text : String) : JVal :=
  .obj [("stream", .str text)]

/-- The call `json.Marshal` of a build result. -/
def marshalBuildResult (br : BuildResult) : JVal :=
  .obj [("ID", .str br.ID)]

/-- An auxiliary event with the given payload. -/
def auxEvent (payload : JVal) : JVal :=
  .obj [("aux", payload)]

/-- The world in which every call up to the submission succeeds and the
daemon answers with the given response body. -/
def World.answering (tmp : String) (body : Body) : World :=
  { clientErr := false
    mkdirTemp := some tmp
    openErr := false
    createErr := false
    copyErr := false
    tarErr := false
    build := some (some body) }

/-- The staged run reaches the submission: every call before `ImageBuild`
succeeds, the temporary directory being `tmp`. -/
def World.reachesBuild (w : World) (tmp : String) : Prop :=
  w.clientErr = false ∧ w.mkdirTemp = some tmp ∧ w.openErr = false ∧
    w.createErr = false ∧ w.copyErr = false ∧ w.tarErr = false

instance (w : World) (tmp : String) : Decidable (w.reachesBuild tmp) := by
  unfold World.reachesBuild
  infer_instance

/-! ## The decoder -/

theorem ioCopyDiscard_eq_nil (body : Body) : ioCopyDiscard body = [] := by
  induction body with
  | nil => rfl
  | cons c rest ih => simpa [ioCopyDiscard] using ih

theorem storeMember_of_not_match (jm : JSONMessage) (kv : String × JVal)
    (h : fieldMatch "aux" kv.1 = false) : storeMember jm kv = jm := by
  simp [storeMember, h]

theorem storeMember_Aux_of_match (jm : JSONMessage) (kv : String × JVal)
    (h : fieldMatch "aux" kv.1 = true) :
    (storeMember jm kv).Aux = auxPayload (.obj [kv]) := by
  obtain ⟨k, v⟩ := kv
  simp only at h
  cases v <;> simp [storeMember, auxPayload, h, List.filter]

theorem foldl_storeMember_Aux (members : List (String × JVal)) (jm : JSONMessage) :
    (members.foldl storeMember jm).Aux =
      match (members.filter (fun kv => fieldMatch "aux" kv.1)).getLast? with
      | none => jm.Aux
      | some (_, .null) => none
      | some (_, p) => some p := by
  induction members using List.reverseRecOn with
  | nil => simp
  | append_singleton l kv ih =>
    rw [List.foldl_append, List.filter_append]
    cases h : fieldMatch "aux" kv.1
    · simp [List.filter, h, storeMember_of_not_match, ih]
    · obtain ⟨k, v⟩ := kv
      simp only at h
      cases v <;> simp [List.filter, h, storeMember]

theorem unmarshalJSONMessage_Aux (v : JVal) :
    (unmarshalJSONMessage v { Aux := none }).1.Aux = auxPayload v := by
  cases v with
  | obj members =>
    simp only [unmarshalJSONMessage, auxPayload, foldl_storeMember_Aux]
  | _ => rfl

theorem unmarshalJSONMessage_err_ne_EOF (v : JVal) (jm : JSONMessage) :
    (unmarshalJSONMessage v jm).2 ≠ some DecodeError.EOF := by
  cases v <;> simp [unmarshalJSONMessage]

theorem decodeLoop_value_skip (fuel : Nat) (v : JVal) (rest : Body) (br : BuildResult)
    (hd : decodable v) (h : auxPayload v = none) :
    decodeLoop (fuel + 1) { r := Chunk.value v :: rest, err := none } { Aux := none } br =
      decodeLoop fuel { r := rest, err := none } { Aux := none } br := by
  have hn : ¬ maxNestingDepth < v.depth := Nat.not_lt.2 hd
  have hA := unmarshalJSONMessage_Aux v
  rw [h] at hA
  have hE := unmarshalJSONMessage_err_ne_EOF v { Aux := none }
  have hjm : (unmarshalJSONMessage v { Aux := none }).1 = { Aux := none } := by
    cases hj : (unmarshalJSONMessage v { Aux := none }).1 with
    | mk a => rw [hj] at hA; simp only at hA; rw [hA]
  simp only [decodeLoop, Decoder.Decode, Body.Read, if_neg hn, if_neg hE, hjm]

theorem decodeLoop_value_aux (fuel : Nat) (v p : JVal) (rest : Body) (br : BuildResult)
    (hd : decodable v) (h : auxPayload v = some p) :
    decodeLoop (fuel + 1) { r := Chunk.value v :: rest, err := none } { Aux := none } br =
      some ({ r := rest, err := none }, (Unmarshal p br).1) := by
  have hn : ¬ maxNestingDepth < v.depth := Nat.not_lt.2 hd
  have hA := unmarshalJSONMessage_Aux v
  rw [h] at hA
  have hE := unmarshalJSONMessage_err_ne_EOF v { Aux := none }
  simp only [decodeLoop, Decoder.Decode, Body.Read, if_neg hn, if_neg hE, hA]

theorem decodeLoop_end (fuel : Nat) (jm : JSONMessage) (br : BuildResult) :
    decodeLoop (fuel + 1) { r := [], err := none } jm br =
      some ({ r := [], err := some DecodeError.EOF }, br) := by
  simp [decodeLoop, Decoder.Decode, Body.Read]

theorem decodeLoop_failed (fuel : Nat) (r : Body) (e : DecodeError) (br : BuildResult)
    (he : e ≠ DecodeError.EOF) :
    decodeLoop fuel { r := r, err := some e } { Aux := none } br = none := by
  induction fuel with
  | zero => rfl
  | succ n ih => simp [decodeLoop, Decoder.Decode, he, ih]

theorem decodeLoop_truncated (fuel : Nat) (rest : Body) (br : BuildResult) :
    decodeLoop fuel { r := Chunk.truncated :: rest, err := none } { Aux := none } br = none := by
  cases fuel with
  | zero => rfl
  | succ n =>
    have h := decodeLoop_failed n [] DecodeError.ErrUnexpectedEOF br (by decide)
    simp [decodeLoop, Decoder.Decode, Body.Read, h]

theorem decodeLoop_invalid (fuel : Nat) (rest : Body) (br : BuildResult) :
    decodeLoop fuel { r := Chunk.invalid :: rest, err := none } { Aux := none } br = none := by
  cases fuel with
  | zero => rfl
  | succ n =>
    have h := decodeLoop_failed n rest DecodeError.SyntaxError br (by decide)
    simp [decodeLoop, Decoder.Decode, Body.Read, h]

theorem decodeLoop_too_deep (fuel : Nat) (v : JVal) (rest : Body) (br : BuildResult)
    (hv : maxNestingDepth < v.depth) :
    decodeLoop fuel { r := Chunk.value v :: rest, err := none } { Aux := none } br = none := by
  cases fuel with
  | zero => rfl
  | succ n =>
    have h := decodeLoop_failed n rest DecodeError.SyntaxError br (by decide)
    simp [decodeLoop, Decoder.Decode, Body.Read, hv, h]

theorem decodeLoop_skip (pre : List JVal) (rest : Body) (fuel : Nat) (br : BuildResult)
    (hpre : ∀ r ∈ pre, decodable r ∧ auxPayload r = none) :
    decodeLoop (pre.length + fuel) { r := pre.map Chunk.value ++ rest, err := none }
        { Aux := none } br =
      decodeLoop fuel { r := rest, err := none } { Aux := none } br := by
  induction pre with
  | nil => simp
  | cons v pre ih =>
    have hv := hpre v (List.mem_cons_self _ _)
    have hrest : ∀ r ∈ pre, decodable r ∧ auxPayload r = none :=
      fun r hr => hpre r (List.mem_cons_of_mem _ hr)
    have hlen : (v :: pre).length + fuel = (pre.length + fuel) + 1 := by
      simp only [List.length_cons]; omega
    rw [hlen, List.map_cons, List.cons_append, decodeLoop_value_skip _ _ _ _ hv.1 hv.2,
      ih hrest]

/-- The call returns at the first record that carries an auxiliary payload,
with whatever unmarshalling that payload leaves in the build result. -/
theorem GetImageIDFromBody_at_first_aux (pre : List JVal) (e p : JVal) (post : Body)
    (fuel : Nat) (hpre : ∀ r ∈ pre, decodable r ∧ auxPayload r = none) (hd : decodable e)
    (he : auxPayload e = some p) (hfuel : pre.length < fuel) :
    GetImageIDFromBody fuel (pre.map Chunk.value ++ Chunk.value e :: post) =
      some ((Unmarshal p { ID := "" }).1.ID, []) := by
  obtain ⟨k, rfl⟩ : ∃ k, fuel = pre.length + (k + 1) := ⟨fuel - pre.length - 1, by omega⟩
  simp only [GetImageIDFromBody, NewDecoder, decodeLoop_skip _ _ _ _ hpre,
    decodeLoop_value_aux _ _ _ _ _ hd he, ioCopyDiscard_eq_nil]

/-- Without a record that carries an auxiliary payload the call reads to the
end of the body and returns the empty string. -/
theorem GetImageIDFromBody_no_aux (recs : List JVal) (fuel : Nat)
    (hrecs : ∀ r ∈ recs, decodable r ∧ auxPayload r = none) (hfuel : recs.length < fuel) :
    GetImageIDFromBody fuel (recs.map Chunk.value) = some ("", []) := by
  obtain ⟨k, rfl⟩ : ∃ k, fuel = recs.length + (k + 1) := ⟨fuel - recs.length - 1, by omega⟩
  have h := decodeLoop_skip recs [] (k + 1) { ID := "" } hrecs
  rw [List.append_nil] at h
  simp only [GetImageIDFromBody, NewDecoder, h, decodeLoop_end, ioCopyDiscard_eq_nil]

theorem decodeLoop_mono (fuel : Nat) (dec : Decoder) (jm : JSONMessage) (br : BuildResult)
    (res : Decoder × BuildResult) (h : decodeLoop fuel dec jm br = some res) :
    decodeLoop (fuel + 1) dec jm br = some res := by
  induction fuel generalizing dec jm with
  | zero => exact absurd h (by simp [decodeLoop])
  | succ n ih =>
    rcases hd : dec.Decode jm with ⟨dec1, jm1, err⟩
    rw [decodeLoop, hd] at h
    rw [decodeLoop, hd]
    by_cases he : err = some DecodeError.EOF
    · simpa [he] using h
    · simp only [if_neg he] at h ⊢
      cases ha : jm1.Aux with
      | none => rw [ha] at h; exact ih _ _ h
      | some raw => rw [ha] at h; exact h

theorem decodeLoop_none_of_le (fuel extra : Nat) (dec : Decoder) (jm : JSONMessage)
    (br : BuildResult) (h : decodeLoop (fuel + extra) dec jm br = none) :
    decodeLoop fuel dec jm br = none := by
  induction extra with
  | zero => exact h
  | succ k ih =>
    apply ih
    cases hk : decodeLoop (fuel + k) dec jm br with
    | none => rfl
    | some res =>
      have := decodeLoop_mono _ _ _ _ _ hk
      rw [← Nat.add_assoc, this] at h
      exact absurd h (by simp)

/-- Behind records that carry no auxiliary payload, a cut-off record, bytes
that are not JSON, or a text nested deeper than the decoder accepts keep the
loop running for ever: the call returns for no amount of fuel. -/
theorem GetImageIDFromBody_none_on_defect (pre : List JVal) (c : Chunk) (rest : Body)
    (fuel : Nat) (hpre : ∀ r ∈ pre, decodable r ∧ auxPayload r = none)
    (hc : c = Chunk.truncated ∨ c = Chunk.invalid ∨
      ∃ v, c = Chunk.value v ∧ maxNestingDepth < v.depth) :
    GetImageIDFromBody fuel (pre.map Chunk.value ++ c :: rest) = none := by
  have h : decodeLoop (fuel + pre.length)
      { r := pre.map Chunk.value ++ c :: rest, err := none } { Aux := none } { ID := "" } =
      none := by
    rw [Nat.add_comm, decodeLoop_skip _ _ _ _ hpre]
    rcases hc with rfl | rfl | ⟨v, rfl, hv⟩
    · exact decodeLoop_truncated _ _ _
    · exact decodeLoop_invalid _ _ _
    · exact decodeLoop_too_deep _ _ _ _ hv
  simp only [GetImageIDFromBody, NewDecoder, decodeLoop_none_of_le _ _ _ _ _ h]

theorem decodeLoop_returns_on_records (recs : List JVal) (fuel : Nat) (br : BuildResult)
    (hrecs : ∀ r ∈ recs, decodable r) (hfuel : recs.length < fuel) :
    (decodeLoop fuel { r := recs.map Chunk.value, err := none } { Aux := none } br).isSome =
      true := by
  induction recs generalizing fuel with
  | nil =>
    obtain ⟨k, rfl⟩ : ∃ k, fuel = k + 1 := ⟨fuel - 1, by simp at hfuel; omega⟩
    rw [List.map_nil, decodeLoop_end]
    rfl
  | cons v recs ih =>
    obtain ⟨k, rfl⟩ : ∃ k, fuel = k + 1 := ⟨fuel - 1, by omega⟩
    have hk : recs.length < k := by simp only [List.length_cons] at hfuel; omega
    have hd : decodable v := hrecs v (List.mem_cons_self _ _)
    rw [List.map_cons]
    cases hv : auxPayload v with
    | none =>
      rw [decodeLoop_value_skip _ _ _ _ hd hv]
      exact ih k (fun r hr => hrecs r (List.mem_cons_of_mem _ hr)) hk
    | some p => rw [decodeLoop_value_aux _ _ _ _ _ hd hv]; rfl

/-- On a stream of complete JSON texts that the decoder accepts the call
returns, within one iteration for each record and one for the end of the
stream. -/
theorem GetImageIDFromBody_returns_on_records (recs : List JVal) (fuel : Nat)
    (hrecs : ∀ r ∈ recs, decodable r) (hfuel : recs.length < fuel) :
    ∃ img, GetImageIDFromBody fuel (recs.map Chunk.value) = some (img, []) := by
  have h := decodeLoop_returns_on_records recs fuel { ID := "" } hrecs hfuel
  unfold GetImageIDFromBody NewDecoder
  cases hd : decodeLoop fuel { r := recs.map Chunk.value, err := none } { Aux := none }
      { ID := "" } with
  | none => rw [hd] at h; exact absurd h (by simp)
  | some res => exact ⟨res.2.ID, by simp only [ioCopyDiscard_eq_nil]⟩

theorem depth_le_depthMembers (k : String) (v : JVal) (ms : List (String × JVal))
    (h : (k, v) ∈ ms) : v.depth ≤ depthMembers ms := by
  induction ms with
  | nil => simp at h
  | cons m ms ih =>
    obtain ⟨k2, v2⟩ := m
    simp only [depthMembers]
    rcases List.mem_cons.1 h with h | h
    · cases h; exact le_max_left _ _
    · exact le_trans (ih h) (le_max_right _ _)

/-- An auxiliary payload is nested no deeper than the record that carries it. -/
theorem auxPayload_depth_le (e p : JVal) (h : auxPayload e = some p) : p.depth ≤ e.depth := by
  cases e with
  | obj members =>
    simp only [auxPayload] at h
    cases hl : (members.filter (fun kv => fieldMatch "aux" kv.1)).getLast? with
    | none => rw [hl] at h; exact absurd h (by simp)
    | some kv =>
      obtain ⟨k, v⟩ := kv
      rw [hl] at h
      have hmem : (k, v) ∈ members :=
        (List.mem_filter.1 (List.mem_of_getLast?_eq_some hl)).1
      have hv : v.depth ≤ depthMembers members := depth_le_depthMembers k v members hmem
      have hp : p = v := by
        cases v <;> simp at h <;> exact h.symm
      subst hp
      simp only [JVal.depth]
      omega
  | _ => exact absurd h (by simp [auxPayload])

theorem depth_nested (n : Nat) : (nested n).depth = n := by
  induction n with
  | zero => rfl
  | succ n ih => simp [nested, JVal.depth, depthItems, ih]

theorem storeID_ID (acc : BuildResult × Option DecodeError) (members : List (String × JVal)) :
    (members.foldl storeID acc).1.ID = ((idStrings (.obj members)).getLast?).getD acc.1.ID := by
  induction members using List.reverseRecOn with
  | nil => simp [idStrings]
  | append_singleton l kv ih =>
    obtain ⟨k, v⟩ := kv
    rw [List.foldl_append]
    simp only [idStrings, List.filterMap_append] at ih ⊢
    cases h : fieldMatch "ID" k
    · simp [storeID, h, ih]
    · cases v <;> simp [storeID, h, ih]

/-- The id unmarshalling leaves: the last string offered for `ID`, else the id
that was there. -/
theorem Unmarshal_ID (p : JVal) (br : BuildResult) (hd : decodable p) :
    (Unmarshal p br).1.ID = ((idStrings p).getLast?).getD br.ID := by
  have hn : ¬ maxNestingDepth < p.depth := Nat.not_lt.2 hd
  cases p with
  | obj members => simpa [Unmarshal, hn] using storeID_ID (br, none) members
  | _ => simp [Unmarshal, idStrings, hn]

/-! ## Claims about `GetImageIDFromBody` -/

/-- C1, as stated, fails: the id of the first event whose auxiliary payload is
a valid build result is not what the call returns when an earlier event
carries a payload that is not one. Here the first auxiliary event carries the
string `"oops"`, the second the id `second`; the call returns `""`. -/
theorem C1_first_valid_aux_refuted :
    ¬ ∀ (recs : List JVal) (x : String), (∀ r ∈ recs, decodable r) →
        recs.findSome? validAuxID = some x →
        ∀ fuel, recs.length < fuel →
          (GetImageIDFromBody fuel (recs.map Chunk.value)).map Prod.fst = some x := by
  intro h
  have h2 := h [auxEvent (.str "oops"), auxEvent (marshalBuildResult { ID := "second" })]
    "second" (by decide) (by decide) 3 (by decide)
  revert h2
  decide

/-- C1, amended: on a stream that is well-formed up to and including its first
auxiliary event (the records before it are JSON event records that carry no
auxiliary payload, and the event is a JSON event record), when that event
carries a valid encoding of a build result with id `x`, the call returns `x`
and leaves nothing unread, whatever progress events precede it and whatever
follows it, later auxiliary events included. -/
theorem GetImageIDFromBody_first_aux_valid (pre : List JVal) (e p : JVal) (post : Body)
    (x : String) (fuel : Nat) (hpre : ∀ r ∈ pre, decodable r ∧ auxPayload r = none)
    (hd : decodable e) (he : auxPayload e = some p)
    (hp : Unmarshal p { ID := "" } = ({ ID := x }, none)) (hfuel : pre.length < fuel) :
    GetImageIDFromBody fuel (pre.map Chunk.value ++ Chunk.value e :: post) = some (x, []) := by
  rw [GetImageIDFromBody_at_first_aux pre e p post fuel hpre hd he hfuel, hp]

/-- C1, at a stream of two progress events, the auxiliary event `first`, a
progress event and the auxiliary event `second`. -/
theorem GetImageIDFromBody_first_aux_valid_witness :
    GetImageIDFromBody 3
      [Chunk.value (progressEvent "Step 1/2"), Chunk.value (progressEvent "Step 2/2"),
        Chunk.value (auxEvent (marshalBuildResult { ID := "first" })),
        Chunk.value (progressEvent "Successfully built"),
        Chunk.value (auxEvent (marshalBuildResult { ID := "second" }))] =
      some ("first", []) :=
  GetImageIDFromBody_first_aux_valid
    [progressEvent "Step 1/2", progressEvent "Step 2/2"]
    (auxEvent (marshalBuildResult { ID := "first" })) (marshalBuildResult { ID := "first" })
    [Chunk.value (progressEvent "Successfully built"),
      Chunk.value (auxEvent (marshalBuildResult { ID := "second" }))]
    "first" 3
    (by intro r hr; simp only [List.mem_cons, List.mem_singleton, List.not_mem_nil, or_false] at hr
        rcases hr with rfl | rfl <;> exact ⟨by decide, rfl⟩)
    (by decide) rfl rfl (by decide)

/-- C2: on a stream of progress/log events, that is of JSON event records
(complete texts that the decoder decodes) none of which carries an auxiliary
payload, the call returns the empty string (once the fuel covers the records
and the final read that meets the end of the stream). -/
theorem GetImageIDFromBody_progress_only (recs : List JVal) (fuel : Nat)
    (hrecs : ∀ r ∈ recs, decodable r ∧ auxPayload r = none) (hfuel : recs.length < fuel) :
    (GetImageIDFromBody fuel (recs.map Chunk.value)).map Prod.fst = some "" := by
  rw [GetImageIDFromBody_no_aux recs fuel hrecs hfuel]
  rfl

/-- C2, at a stream of two progress events and an error event. -/
theorem GetImageIDFromBody_progress_only_witness :
    (GetImageIDFromBody 4
      [Chunk.value (progressEvent "Step 1/2"), Chunk.value (progressEvent "Step 2/2"),
        Chunk.value (.obj [("errorDetail", .obj [("message", .str "exit code 1")]),
          ("error", .str "exit code 1")])]).map Prod.fst = some "" :=
  GetImageIDFromBody_progress_only
    [progressEvent "Step 1/2", progressEvent "Step 2/2",
      .obj [("errorDetail", .obj [("message", .str "exit code 1")]),
        ("error", .str "exit code 1")]] 4
    (by intro r hr; simp only [List.mem_cons, List.mem_singleton, List.not_mem_nil, or_false] at hr
        rcases hr with rfl | rfl | rfl <;> exact ⟨by decide, rfl⟩)
    (by decide)

/-- C3, as stated, fails: a payload that `json.Unmarshal` rejects can still
leave an id behind. The payload `{"ID":"x","ID":5}` is rejected for its
second member after its first has been stored; the call returns `x`. -/
theorem C3_malformed_payload_refuted :
    ¬ ∀ (pre : List JVal) (e p : JVal) (post : Body),
        (∀ r ∈ pre, decodable r ∧ auxPayload r = none) → decodable e →
        auxPayload e = some p → (Unmarshal p { ID := "" }).2 ≠ none →
        ∀ fuel, pre.length < fuel →
          (GetImageIDFromBody fuel (pre.map Chunk.value ++ Chunk.value e :: post)).map
            Prod.fst = some "" := by
  intro h
  have h2 := h [] (auxEvent (.obj [("ID", .str "x"), ("ID", .num 5)]))
    (.obj [("ID", .str "x"), ("ID", .num 5)]) [] (by simp) (by decide) rfl (by decide) 1
    (by decide)
  revert h2
  decide

/-- C3, amended: on a stream that is well-formed up to and including its first
auxiliary event (the records before it are JSON event records that carry no
auxiliary payload, and the event is a JSON event record), when that event
carries a payload that `json.Unmarshal` rejects and that offers no string for
`ID` (any payload that is not an object, for one), the call returns the empty
string, whatever follows. It has no error to return. -/
theorem GetImageIDFromBody_first_aux_malformed (pre : List JVal) (e p : JVal) (post : Body)
    (fuel : Nat) (hpre : ∀ r ∈ pre, decodable r ∧ auxPayload r = none) (hd : decodable e)
    (he : auxPayload e = some p) (_hp : (Unmarshal p { ID := "" }).2 ≠ none)
    (hid : idStrings p = []) (hfuel : pre.length < fuel) :
    GetImageIDFromBody fuel (pre.map Chunk.value ++ Chunk.value e :: post) = some ("", []) := by
  have hpd : decodable p := le_trans (auxPayload_depth_le e p he) hd
  rw [GetImageIDFromBody_at_first_aux pre e p post fuel hpre hd he hfuel,
    Unmarshal_ID _ _ hpd, hid]
  rfl

/-- C3, at a stream whose first auxiliary event carries `{"ID":5}` and is
followed by a well-formed one. -/
theorem GetImageIDFromBody_first_aux_malformed_witness :
    GetImageIDFromBody 2
      [Chunk.value (progressEvent "Step 1/1"), Chunk.value (auxEvent (.obj [("ID", .num 5)])),
        Chunk.value (auxEvent (marshalBuildResult { ID := "later" }))] = some ("", []) :=
  GetImageIDFromBody_first_aux_malformed [progressEvent "Step 1/1"]
    (auxEvent (.obj [("ID", .num 5)])) (.obj [("ID", .num 5)])
    [Chunk.value (auxEvent (marshalBuildResult { ID := "later" }))] 2
    (by intro r hr; simp only [List.mem_singleton] at hr; subst hr; exact ⟨by decide, rfl⟩)
    (by decide) rfl (by decide) rfl (by decide)

/-- C4 fails on the code: on a stream whose last record is cut off, and on
one that starts with bytes that are not JSON, the loop is still running
after any number of iterations, so the call never returns. -/
theorem GetImageIDFromBody_never_returns (fuel : Nat) :
    GetImageIDFromBody fuel [Chunk.value (progressEvent "Step 1/2"), Chunk.truncated] = none ∧
      GetImageIDFromBody fuel [Chunk.invalid] = none := by
  constructor
  · cases fuel with
    | zero => rfl
    | succ n =>
      simp only [GetImageIDFromBody, NewDecoder]
      rw [decodeLoop_value_skip n (progressEvent "Step 1/2") [Chunk.truncated] _ (by decide) rfl,
        decodeLoop_truncated]
  · simp only [GetImageIDFromBody, NewDecoder]
    rw [decodeLoop_invalid]

/-- A record nested deeper than the decoder accepts hangs the call as bytes
that are not JSON do, also in front of a well-formed auxiliary event. -/
theorem GetImageIDFromBody_none_on_deep_record (fuel n : Nat) (rest : Body)
    (hn : maxNestingDepth ≤ n) :
    GetImageIDFromBody fuel (Chunk.value (.obj [("stream", nested n)]) :: rest) = none := by
  have hdepth : maxNestingDepth < (JVal.obj [("stream", nested n)]).depth := by
    simp only [JVal.depth, depthMembers, depth_nested]
    omega
  exact GetImageIDFromBody_none_on_defect [] _ rest fuel (by simp)
    (Or.inr (Or.inr ⟨_, rfl, hdepth⟩))

/-- C5: whenever the call returns, nothing of the body is left unread and the
next read meets the end of the stream. -/
theorem GetImageIDFromBody_drains (fuel : Nat) (body : Body) (id : String) (rest : Body)
    (h : GetImageIDFromBody fuel body = some (id, rest)) :
    rest = [] ∧ Body.Read rest = (none, []) := by
  have hrest : rest = [] := by
    unfold GetImageIDFromBody at h
    split at h
    · exact absurd h (by simp)
    · simp only [Option.some.injEq, Prod.mk.injEq] at h
      rw [← h.2, ioCopyDiscard_eq_nil]
  subst hrest
  exact ⟨rfl, rfl⟩

/-- C5, at a stream on which the loop stops at the first of three records: two
records are unread when the loop exits, none when the call returns. -/
theorem GetImageIDFromBody_drains_witness :
    (decodeLoop 1
        (NewDecoder [Chunk.value (auxEvent (marshalBuildResult { ID := "first" })),
          Chunk.value (progressEvent "done"),
          Chunk.value (auxEvent (marshalBuildResult { ID := "second" }))])
        { Aux := none } { ID := "" }).map (fun s => s.1.r.length) = some 2 ∧
      (([] : Body) = [] ∧ Body.Read ([] : Body) = (none, [])) :=
  ⟨by decide,
    GetImageIDFromBody_drains 1
      [Chunk.value (auxEvent (marshalBuildResult { ID := "first" })),
        Chunk.value (progressEvent "done"),
        Chunk.value (auxEvent (marshalBuildResult { ID := "second" }))] "first" [] rfl⟩

/-! ## Claims about `main` -/

/-- C10: the positional argument is inert. Two runs that differ only in the
remaining arguments exit the same way, make the same calls (the same
directory is packaged, the same build request is submitted), leave the same
directories, and write the same lines apart from the fourth, the `context:`
line, which shows the argument. -/
theorem main_context_argument_inert (fuel : Nat) (target dockerfile : String)
    (interactiveDebug : Bool) (w : World) (args1 args2 : List String) :
    (main fuel target dockerfile interactiveDebug args1 w).exit =
        (main fuel target dockerfile interactiveDebug args2 w).exit ∧
      (main fuel target dockerfile interactiveDebug args1 w).calls =
        (main fuel target dockerfile interactiveDebug args2 w).calls ∧
      (main fuel target dockerfile interactiveDebug args1 w).dirs =
        (main fuel target dockerfile interactiveDebug args2 w).dirs ∧
      (main fuel target dockerfile interactiveDebug args1 w).stdout.eraseIdx 3 =
        (main fuel target dockerfile interactiveDebug args2 w).stdout.eraseIdx 3 ∧
      (target ≠ "" →
        (main fuel target dockerfile interactiveDebug args1 w).stdout.get? 3 =
          some (printlnStr "            context:" (buildContextOf args1))) := by
  obtain ⟨ce, md, oe, cre, cpe, te, b⟩ := w
  by_cases ht : target = ""
  · simp [main, ht]
  · rcases b with _ | _ | body
    · cases ce <;> cases md <;> cases oe <;> cases cre <;> cases cpe <;> cases te <;>
        simp [main, ht, copyFile, goPanic, logFatalf, osExit, runDefers, runDeferred,
          Proc.finish, Proc.println, Proc.call, Proc.defer]
    · cases ce <;> cases md <;> cases oe <;> cases cre <;> cases cpe <;> cases te <;>
        simp [main, ht, copyFile, goPanic, logFatalf, osExit, runDefers, runDeferred,
          Proc.finish, Proc.println, Proc.call, Proc.defer]
    · rcases hG : GetImageIDFromBody fuel body with _ | ⟨img, rest⟩
      · cases ce <;> cases md <;> cases oe <;> cases cre <;> cases cpe <;> cases te <;>
          simp [main, ht, hG, copyFile, goPanic, logFatalf, osExit, runDefers, runDeferred,
            Proc.finish, Proc.println, Proc.call, Proc.defer]
      · by_cases himg : img = "" <;>
          cases ce <;> cases md <;> cases oe <;> cases cre <;> cases cpe <;> cases te <;>
          simp [main, ht, hG, himg, copyFile, goPanic, goReturn, logFatalf, osExit, runDefers,
            runDeferred, Proc.finish, Proc.println, Proc.call, Proc.defer]

/-- C6: every build request `main` submits removes intermediate containers on
success, forces their removal on failure, is tagged with the target alone,
carries the `-i` flag unchanged, and names as dockerfile the file under which
the user's dockerfile was copied into the directory that is packaged; and
`main` does submit one whenever the target is not empty and every call before
the submission succeeds. -/
theorem main_build_request (fuel : Nat) (target dockerfile : String)
    (interactiveDebug : Bool) (args : List String) (w : World) (ht : target ≠ "") :
    (∀ ctx opts,
        Effect.imageBuild ctx opts ∈ (main fuel target dockerfile interactiveDebug args w).calls →
          opts.Remove = true ∧ opts.ForceRemove = true ∧ opts.Tags = [target] ∧
            opts.Interactive = interactiveDebug ∧ opts.Dockerfile = "Dockerfile" ∧
            Effect.ioCopy (filepathJoin ctx opts.Dockerfile) dockerfile ∈
              (main fuel target dockerfile interactiveDebug args w).calls ∧
            Effect.tar ctx ∈ (main fuel target dockerfile interactiveDebug args w).calls) ∧
      (∀ tmp, w.reachesBuild tmp →
        Effect.imageBuild tmp
            { Remove := true, ForceRemove := true, Dockerfile := "Dockerfile",
              Tags := [target], Interactive := interactiveDebug } ∈
          (main fuel target dockerfile interactiveDebug args w).calls) := by
  obtain ⟨ce, md, oe, cre, cpe, te, b⟩ := w
  constructor
  · intro ctx opts h
    rcases b with _ | _ | body
    · cases ce <;> cases md <;> cases oe <;> cases cre <;> cases cpe <;> cases te <;>
        simp [main, ht, copyFile, goPanic, logFatalf, osExit, runDefers, runDeferred,
          Proc.finish, Proc.println, Proc.call, Proc.defer, buildOptions] at h ⊢
      obtain ⟨rfl, rfl⟩ := h
      simp
    · cases ce <;> cases md <;> cases oe <;> cases cre <;> cases cpe <;> cases te <;>
        simp [main, ht, copyFile, goPanic, logFatalf, osExit, runDefers, runDeferred,
          Proc.finish, Proc.println, Proc.call, Proc.defer, buildOptions] at h ⊢
      obtain ⟨rfl, rfl⟩ := h
      simp
    · rcases hG : GetImageIDFromBody fuel body with _ | ⟨img, rest⟩
      · cases ce <;> cases md <;> cases oe <;> cases cre <;> cases cpe <;> cases te <;>
          simp [main, ht, hG, copyFile, goPanic, logFatalf, osExit, runDefers, runDeferred,
            Proc.finish, Proc.println, Proc.call, Proc.defer, buildOptions] at h ⊢
        obtain ⟨rfl, rfl⟩ := h
        simp
      · by_cases himg : img = "" <;>
          cases ce <;> cases md <;> cases oe <;> cases cre <;> cases cpe <;> cases te <;>
          simp [main, ht, hG, himg, copyFile, goPanic, goReturn, logFatalf, osExit, runDefers,
            runDeferred, Proc.finish, Proc.println, Proc.call, Proc.defer, buildOptions]
            at h ⊢ <;>
          (obtain ⟨rfl, rfl⟩ := h; simp)
  · rintro tmp ⟨h1, h2, h3, h4, h5, h6⟩
    simp only at h1 h2 h3 h4 h5 h6
    subst h1 h2 h3 h4 h5 h6
    rcases b with _ | _ | body
    · simp [main, ht, copyFile, logFatalf, osExit, Proc.finish, Proc.println, Proc.call,
        Proc.defer, buildOptions]
    · simp [main, ht, copyFile, goPanic, runDefers, runDeferred, Proc.finish, Proc.println,
        Proc.call, Proc.defer, buildOptions]
    · rcases hG : GetImageIDFromBody fuel body with _ | ⟨img, rest⟩
      · simp [main, ht, hG, copyFile, Proc.finish, Proc.println, Proc.call, Proc.defer,
          buildOptions]
      · by_cases himg : img = "" <;>
          simp [main, ht, hG, himg, copyFile, goReturn, runDefers, runDeferred, Proc.finish,
            Proc.println, Proc.call, Proc.defer, buildOptions]

/-- C6, at the target `test` with `-i`, in a world where the daemon answers
with one auxiliary event. -/
theorem main_build_request_witness :
    Effect.imageBuild "/tmp/docker-dinosaur-build1"
        { Remove := true, ForceRemove := true, Dockerfile := "Dockerfile", Tags := ["test"],
          Interactive := true } ∈
      (main 2 "test" "Dockerfile.test" true ["."]
        (World.answering "/tmp/docker-dinosaur-build1"
          [Chunk.value (auxEvent (marshalBuildResult { ID := "sha256:deadbeef" }))])).calls :=
  (main_build_request 2 "test" "Dockerfile.test" true ["."]
    (World.answering "/tmp/docker-dinosaur-build1"
      [Chunk.value (auxEvent (marshalBuildResult { ID := "sha256:deadbeef" }))])
    (by decide)).2 "/tmp/docker-dinosaur-build1" (by decide)

/-- C7: with an empty target `main` panics at once. It has written nothing to
standard output, the only call it has made is the log message of the panic
(no client, no temporary directory, no copy, no archive, no build request),
and no temporary directory exists. -/
theorem main_without_target (fuel : Nat) (dockerfile : String) (interactiveDebug : Bool)
    (args : List String) (w : World) :
    main fuel "" dockerfile interactiveDebug args w =
      { exit := Exit.panicked
        stdout := []
        calls := [Effect.log "Please enter a -t target to build"]
        dirs := [] } := by
  simp [main, logPanicf, goPanic, runDefers, Proc.finish, Proc.call]

/-- C8 fails on the code: when the daemon rejects the build, and likewise when
packaging fails, `main` leaves through `log.Fatalf`; the process exits with
code 1, `os.RemoveAll` has not been called and the staging directory still
exists. -/
theorem main_fatal_keeps_staging (fuel : Nat) (interactiveDebug : Bool) (args : List String) :
    (main fuel "fail" "Dockerfile.fail" interactiveDebug args
        { World.answering "/tmp/docker-dinosaur-build1" [] with build := none }).exit =
        Exit.exited 1 ∧
      (main fuel "fail" "Dockerfile.fail" interactiveDebug args
        { World.answering "/tmp/docker-dinosaur-build1" [] with build := none }).dirs =
        ["/tmp/docker-dinosaur-build1"] ∧
      Effect.removeAll "/tmp/docker-dinosaur-build1" ∉
        (main fuel "fail" "Dockerfile.fail" interactiveDebug args
          { World.answering "/tmp/docker-dinosaur-build1" [] with build := none }).calls ∧
      (main fuel "fail" "Dockerfile.fail" interactiveDebug args
        { World.answering "/tmp/docker-dinosaur-build1" [] with tarErr := true }).exit =
        Exit.exited 1 ∧
      (main fuel "fail" "Dockerfile.fail" interactiveDebug args
        { World.answering "/tmp/docker-dinosaur-build1" [] with tarErr := true }).dirs =
        ["/tmp/docker-dinosaur-build1"] := by
  simp [main, World.answering, copyFile, logFatalf, osExit, Proc.finish, Proc.println,
    Proc.call, Proc.defer]

/-- When `main` returns or panics, no temporary directory is left. -/
theorem main_staging_removed_on_return_or_panic (fuel : Nat) (target dockerfile : String)
    (interactiveDebug : Bool) (args : List String) (w : World)
    (h : (main fuel target dockerfile interactiveDebug args w).exit = Exit.returned ∨
      (main fuel target dockerfile interactiveDebug args w).exit = Exit.panicked) :
    (main fuel target dockerfile interactiveDebug args w).dirs = [] := by
  obtain ⟨ce, md, oe, cre, cpe, te, b⟩ := w
  by_cases ht : target = ""
  · simp [main, ht, logPanicf, goPanic, runDefers, Proc.finish, Proc.call]
  · rcases b with _ | _ | body
    · cases ce <;> cases md <;> cases oe <;> cases cre <;> cases cpe <;> cases te <;>
        simp [main, ht, copyFile, goPanic, logFatalf, osExit, runDefers, runDeferred,
          Proc.finish, Proc.println, Proc.call, Proc.defer] at h ⊢
    · cases ce <;> cases md <;> cases oe <;> cases cre <;> cases cpe <;> cases te <;>
        simp [main, ht, copyFile, goPanic, logFatalf, osExit, runDefers, runDeferred,
          Proc.finish, Proc.println, Proc.call, Proc.defer] at h ⊢
    · rcases hG : GetImageIDFromBody fuel body with _ | ⟨img, rest⟩
      · cases ce <;> cases md <;> cases oe <;> cases cre <;> cases cpe <;> cases te <;>
          simp [main, ht, hG, copyFile, goPanic, logFatalf, osExit, runDefers, runDeferred,
            Proc.finish, Proc.println, Proc.call, Proc.defer] at h ⊢
      · by_cases himg : img = "" <;>
          cases ce <;> cases md <;> cases oe <;> cases cre <;> cases cpe <;> cases te <;>
          simp [main, ht, hG, himg, copyFile, goPanic, goReturn, logFatalf, osExit, runDefers,
            runDeferred, Proc.finish, Proc.println, Proc.call, Proc.defer] at h ⊢

/-- When the submission succeeds and `GetImageIDFromBody` returns `img` on the
response, `main` returns, having written the five status lines and one more
line: `img` itself when it is not empty, the failure message when it is. -/
theorem main_reports_of_returned (fuel : Nat) (target dockerfile : String)
    (interactiveDebug : Bool) (args : List String) (w : World) (tmp : String) (body : Body)
    (img : String) (rest : Body) (ht : target ≠ "") (hw : w.reachesBuild tmp)
    (hb : w.build = some (some body)) (hG : GetImageIDFromBody fuel body = some (img, rest)) :
    (main fuel target dockerfile interactiveDebug args w).exit = Exit.returned ∧
      (main fuel target dockerfile interactiveDebug args w).stdout.getLast? =
        some (if img = "" then failureMessage else img) ∧
      (main fuel target dockerfile interactiveDebug args w).stdout.length = 6 := by
  obtain ⟨ce, md, oe, cre, cpe, te, b⟩ := w
  obtain ⟨h1, h2, h3, h4, h5, h6⟩ := hw
  simp only at h1 h2 h3 h4 h5 h6 hb
  subst h1 h2 h3 h4 h5 h6 hb
  by_cases himg : img = "" <;>
    simp [main, ht, hG, himg, copyFile, goReturn, runDefers, runDeferred, Proc.finish,
      Proc.println, Proc.call, Proc.defer]

/-- C9, as stated, fails: not every response stream of a successful submission
makes `main` print a last line that is what `GetImageIDFromBody` returned. On
a response of one progress event followed by a record that is cut off,
`GetImageIDFromBody` returns nothing, whatever the number of iterations. -/
theorem C9_every_stream_refuted :
    ¬ ∀ body : Body, ∃ fuel img rest, GetImageIDFromBody fuel body = some (img, rest) ∧
        (main fuel "test" "Dockerfile.test" false ["."]
          (World.answering "/tmp/docker-dinosaur-build1" body)).stdout.getLast? =
          some (if img = "" then failureMessage else img) := by
  intro h
  obtain ⟨fuel, img, rest, hG, _⟩ :=
    h [Chunk.value (progressEvent "Step 1/2"), Chunk.truncated]
  have hnone := GetImageIDFromBody_none_on_defect [progressEvent "Step 1/2"] Chunk.truncated []
    fuel (by intro r hr; simp only [List.mem_singleton] at hr; subst hr; exact ⟨by decide, rfl⟩)
    (Or.inl rfl)
  simp only [List.map_cons, List.map_nil, List.cons_append, List.nil_append] at hnone
  rw [hnone] at hG
  exact absurd hG (by simp)

/-- C9, amended: when the submission succeeds, on every response on which
`GetImageIDFromBody` returns, with `img`, `main` returns, having written the
five status lines and one more line: `img` itself when it is not empty, the
failure message when it is. And `GetImageIDFromBody` does return, so that
`main` does print that line, on every response made of JSON event records
only, once the fuel covers the records and the read that meets the end of
the stream. -/
theorem main_reports_image_id (fuel : Nat) (target dockerfile : String)
    (interactiveDebug : Bool) (args : List String) (w : World) (tmp : String) (body : Body)
    (ht : target ≠ "") (hw : w.reachesBuild tmp) (hb : w.build = some (some body)) :
    (∀ img rest, GetImageIDFromBody fuel body = some (img, rest) →
        (main fuel target dockerfile interactiveDebug args w).exit = Exit.returned ∧
          (main fuel target dockerfile interactiveDebug args w).stdout.getLast? =
            some (if img = "" then failureMessage else img) ∧
          (main fuel target dockerfile interactiveDebug args w).stdout.length = 6) ∧
      (∀ recs : List JVal, body = recs.map Chunk.value → (∀ r ∈ recs, decodable r) →
        recs.length < fuel →
          ∃ img, GetImageIDFromBody fuel body = some (img, []) ∧
            (main fuel target dockerfile interactiveDebug args w).exit = Exit.returned ∧
            (main fuel target dockerfile interactiveDebug args w).stdout.getLast? =
              some (if img = "" then failureMessage else img)) := by
  refine ⟨fun img rest hG =>
    main_reports_of_returned fuel target dockerfile interactiveDebug args w tmp body img rest
      ht hw hb hG, ?_⟩
  intro recs hbody hrecs hfuel
  obtain ⟨img, hG⟩ := GetImageIDFromBody_returns_on_records recs fuel hrecs hfuel
  rw [← hbody] at hG
  have h := main_reports_of_returned fuel target dockerfile interactiveDebug args w tmp body
    img [] ht hw hb hG
  exact ⟨img, hG, h.1, h.2.1⟩

/-- C9, at a response of two progress events followed by the auxiliary event
`{"ID":"sha256:deadbeef"}`, and at a response of progress and error events
only. -/
theorem main_reports_image_id_witness :
    (main 3 "test" "Dockerfile.test" false ["."]
        (World.answering "/tmp/docker-dinosaur-build1"
          [Chunk.value (progressEvent "Step 1/2"), Chunk.value (progressEvent "Step 2/2"),
            Chunk.value (auxEvent (marshalBuildResult { ID := "sha256:deadbeef" }))])).stdout.getLast? =
        some "sha256:deadbeef" ∧
      (main 3 "fail" "Dockerfile.fail" false ["."]
        (World.answering "/tmp/docker-dinosaur-build2"
          [Chunk.value (progressEvent "Step 1/2"),
            Chunk.value (.obj [("error", .str "exit code 1")])])).stdout.getLast? =
        some "😭 Sorry, that image build failed." :=
  ⟨((main_reports_image_id 3 "test" "Dockerfile.test" false ["."]
      (World.answering "/tmp/docker-dinosaur-build1"
        [Chunk.value (progressEvent "Step 1/2"), Chunk.value (progressEvent "Step 2/2"),
          Chunk.value (auxEvent (marshalBuildResult { ID := "sha256:deadbeef" }))])
      "/tmp/docker-dinosaur-build1"
      [Chunk.value (progressEvent "Step 1/2"), Chunk.value (progressEvent "Step 2/2"),
        Chunk.value (auxEvent (marshalBuildResult { ID := "sha256:deadbeef" }))]
      (by decide) (by decide) rfl).1 "sha256:deadbeef" [] rfl).2.1,
    ((main_reports_image_id 3 "fail" "Dockerfile.fail" false ["."]
      (World.answering "/tmp/docker-dinosaur-build2"
        [Chunk.value (progressEvent "Step 1/2"),
          Chunk.value (.obj [("error", .str "exit code 1")])])
      "/tmp/docker-dinosaur-build2"
      [Chunk.value (progressEvent "Step 1/2"),
        Chunk.value (.obj [("error", .str "exit code 1")])]
      (by decide) (by decide) rfl).1 "" [] rfl).2.1⟩

end DockerBuild
